import Mathlib

/-! # Page analysis of `backend/crawler/crawler.go`

A shallow embedding of `AnalyzePage`, `detectHTMLVersion` and
`checkLinkAccessibility`.

The program talks to the network and to three libraries (`net/http`,
`net/url`, `goquery`).  Everything the program cannot decide by itself
is gathered in a `World`: the answers of the network, of the URL parser
and of the HTML parser.  The parsed document is a tree of `html.Node`s,
and the `goquery` selection functions the program calls (`Find`, `Each`,
`Attr`, `Text`, `Length`) are functions over that tree.

* The probes are sequential, one per visited anchor, so the outcome of a
  probe is a function of the index of the anchor and of the address.
* `AnalyzePage` ignores the error of the second `url.Parse(pageURL)` and
  dereferences its result; the outcome `Run.panics` stands for the nil
  dereference, which cannot happen after a successful `http.Get`.
* Go strings are modelled by Lean strings, compared character by
  character.  The counters of `PageAnalysis` are Go `int`s that only ever
  grow by one per anchor element, so they are natural numbers here.
-/

namespace Crawler

/-! ## `strings` -/

/-- Go `strings.HasPrefix(s, prefix)`. -/
def HasPrefix (s pre : String) : Bool :=
  pre.data.isPrefixOf s.data

/-- Go `strings.HasSuffix(s, suffix)`. -/
def HasSuffix (s suffix : String) : Bool :=
  suffix.data.isSuffixOf s.data

/-- Scan of `strings.Contains`: does `sub` start at some position of the text. -/
def containsChars (sub : List Char) : List Char → Bool
  | [] => sub.isPrefixOf []
  | c :: cs => sub.isPrefixOf (c :: cs) || containsChars sub cs

/-- Go `strings.Contains(s, substr)`. -/
def Contains (s substr : String) : Bool :=
  containsChars substr.data s.data

/-- Left-to-right scan behind `strings.LastIndexByte`: `i` is the index of the
head of the list, `acc` the last match seen so far. -/
def lastIndexFrom (c : Char) : List Char → Nat → Option Nat → Option Nat
  | [], _, acc => acc
  | x :: xs, i, acc => lastIndexFrom c xs (i + 1) (if x = c then some i else acc)

/-- Go `strings.LastIndexByte(s, c)`; `none` stands for the result `-1`. -/
def LastIndexByte (s : List Char) (c : Char) : Option Nat :=
  lastIndexFrom c s 0 none

/-! ## `net/url` -/

/-- Go `url.URL`, the fields that carry the parts of an address. -/
structure URL where
  Scheme : String
  Opaque : String
  Host : String
  Path : String
  RawQuery : String
  Fragment : String
deriving DecidableEq, Repr

/-- Go `(*URL).IsAbs`: the URL has a scheme. -/
def URL.IsAbs (u : URL) : Bool :=
  u.Scheme != ""

/-- Go `validOptionalPort`: empty, or a colon followed by digits only. -/
def validOptionalPort (port : List Char) : Bool :=
  match port with
  | [] => true
  | c :: rest => c == ':' && rest.all (fun b => !(decide (b < '0') || decide (b > '9')))

/-- Go `splitHostPort`: cut a valid port off the end, then the square brackets
of an IPv6 literal. -/
def splitHostPort (hostPort : String) : String × String :=
  let host := hostPort.data
  let hp : List Char × List Char :=
    match LastIndexByte host ':' with
    | some colon =>
      if validOptionalPort (host.drop colon) then (host.take colon, host.drop (colon + 1))
      else (host, [])
    | none => (host, [])
  let host := hp.1
  let host :=
    if HasPrefix ⟨host⟩ "[" && HasSuffix ⟨host⟩ "]" then (host.take (host.length - 1)).drop 1
    else host
  (⟨host⟩, ⟨hp.2⟩)

/-- Go `(*URL).Hostname`: `u.Host` without the port. -/
def URL.Hostname (u : URL) : String :=
  (splitHostPort u.Host).1

/-! ## `html.Node` and `goquery` -/

/-- Go `html.NodeType`. -/
inductive NodeType where
  | ErrorNode
  | TextNode
  | DocumentNode
  | ElementNode
  | CommentNode
  | DoctypeNode
deriving DecidableEq, Repr

/-- Go `html.Attribute`. -/
structure Attribute where
  Namespace : String
  Key : String
  Val : String
deriving DecidableEq, Repr

/-- Go `html.Node`: node type, `Data` (the tag name of an element, the text of
a text node), attributes and children in document order. -/
inductive Node where
  | mk (Typ : NodeType) (Data : String) (Attr : List Attribute) (children : List Node)

/-- Node type of a node. -/
def Node.Typ : Node → NodeType
  | .mk t _ _ _ => t

/-- Tag name or text of a node. -/
def Node.Data : Node → String
  | .mk _ d _ _ => d

/-- Attributes of a node. -/
def Node.Attr : Node → List Attribute
  | .mk _ _ a _ => a

/-- Children of a node, in document order. -/
def Node.children : Node → List Node
  | .mk _ _ _ cs => cs

/-- Selector for a tag name (`cascadia`): an element whose `Data` is the tag. -/
def typeSelector (tag : String) (n : Node) : Bool :=
  decide (n.Typ = NodeType.ElementNode) && decide (n.Data = tag)

/-- Attribute test of `cascadia`: an element with an attribute `key` whose value
passes `f`. -/
def matchAttribute (n : Node) (key : String) (f : String → Bool) : Bool :=
  decide (n.Typ = NodeType.ElementNode) && n.Attr.any (fun a => decide (a.Key = key) && f a.Val)

/-- Selector `input[type='password']`. -/
def passwordInputSelector (n : Node) : Bool :=
  typeSelector "input" n && matchAttribute n "type" (fun s => decide (s = "password"))

mutual
/-- Selector `MatchAll` of `cascadia`: the nodes matching `m` among `n` and its
descendants, in document order. -/
def MatchAll (m : Node → Bool) : Node → List Node
  | .mk t d a cs => (if m (.mk t d a cs) then [.mk t d a cs] else []) ++ MatchAllList m cs
/-- The `MatchAll` of each node of a list of siblings, one after the other. -/
def MatchAllList (m : Node → Bool) : List Node → List Node
  | [] => []
  | c :: cs => MatchAll m c ++ MatchAllList m cs
end

/-- Loop of `findWithMatcher` over the children of the selected node: only
element children are searched. -/
def findIn (m : Node → Bool) : List Node → List Node
  | [] => []
  | c :: cs =>
    (if c.Typ = NodeType.ElementNode then MatchAll m c else []) ++ findIn m cs

/-- Selection `doc.Find(selector)` of `goquery` on the document: the
descendants of the root that match. -/
def Find (doc : Node) (m : Node → Bool) : List Node :=
  findIn m doc.children

mutual
/-- Inner function of `Selection.Text`: the text nodes of `n` and of its
descendants, concatenated. -/
def nodeText : Node → String
  | .mk t d _ cs => (if t = NodeType.TextNode then d else "") ++ nodeTextList cs
/-- The `nodeText` of each node of a list of siblings, concatenated. -/
def nodeTextList : List Node → String
  | [] => ""
  | c :: cs => nodeText c ++ nodeTextList cs
end

/-- Go `Selection.Text` of `goquery`: the text of every node of the selection is
written to one buffer. -/
def Text (sel : List Node) : String :=
  sel.foldl (fun buf n => buf ++ nodeText n) ""

/-- Go `Selection.Attr` of `goquery` on a one-node selection: value of the first
attribute with that key, and whether there is one. -/
def Attr (s : Node) (attrName : String) : String × Bool :=
  match s.Attr.find? (fun a => decide (a.Key = attrName)) with
  | some a => (a.Val, true)
  | none => ("", false)

/-! ## The program -/

/-- Go `error` value. -/
structure GoError where
  msg : String
deriving DecidableEq, Repr

/-- Go `http.Response`: the status code and the body stream. -/
structure Response where
  StatusCode : Int
  Body : String
deriving DecidableEq, Repr

/-- Everything outside the program.
* `Parse` is `url.Parse`, `ResolveReference` and `URLString` are the methods
  `(*URL).ResolveReference` and `(*URL).String`.
* `Do` is the round trip of the `GET` request for the page.
* `Head i url` is the outcome of `http.Head(url)` issued while the `i`-th
  anchor element is visited.
* `NewDocumentFromReader` is the HTML parser reading a body, `Html` is
  `doc.Html()`. -/
structure World where
  Parse : String → Except GoError URL
  ResolveReference : URL → URL → URL
  URLString : URL → String
  Do : URL → Except GoError Response
  Head : Nat → String → Except GoError Response
  NewDocumentFromReader : String → Except GoError Node
  Html : Node → String

/-- Go `http.Get(url)`: the request is built from `url.Parse(url)`, and sent only
when that succeeds. -/
def Get (w : World) (url : String) : Except GoError Response :=
  match w.Parse url with
  | .error err => .error err
  | .ok u => w.Do u

/-- Go `map[string]int`, as the list of its entries. -/
abbrev GoMap := List (String × Nat)

/-- Assignment `m[k] = v`. -/
def mapSet : GoMap → String → Nat → GoMap
  | [], k, v => [(k, v)]
  | (k0, v0) :: rest, k, v => if k0 = k then (k, v) :: rest else (k0, v0) :: mapSet rest k v

/-- Read `m[k]`: the zero value when the key is absent. -/
def mapGet : GoMap → String → Nat
  | [], _ => 0
  | (k0, v0) :: rest, k => if k0 = k then v0 else mapGet rest k

/-- Keys of the map. -/
def mapKeys (m : GoMap) : List String :=
  m.map Prod.fst

/-- Go `len(m)`. -/
def mapLen (m : GoMap) : Nat :=
  m.length

/-- Element of `BrokenLinks`. -/
structure BrokenLink where
  URL : String
  StatusCode : Int
deriving DecidableEq, Repr

/-- Result of the analysis. -/
structure PageAnalysis where
  HTMLVersion : String
  Title : String
  Headings : GoMap
  InternalLinks : Nat
  ExternalLinks : Nat
  Inaccessible : Nat
  HasLoginForm : Bool
  BrokenLinks : List BrokenLink
deriving DecidableEq, Repr

/-- How a call ends: it returns, or it stops on a nil pointer dereference. -/
inductive Run (α : Type) where
  | returns (v : α)
  | panics
deriving DecidableEq, Repr

/-- Source `detectHTMLVersion`. -/
def detectHTMLVersion (html : String) : String :=
  if Contains html "<!DOCTYPE html>" then "HTML5"
  else if Contains html "<!DOCTYPE HTML PUBLIC" then "HTML4"
  else "Unknown"

/-- Source `checkLinkAccessibility`, called while the `i`-th anchor is visited. -/
def checkLinkAccessibility (w : World) (i : Nat) (url : String) : Int × Bool :=
  match w.Head i url with
  | .error _ => (0, false)
  | .ok resp => (resp.StatusCode, decide (resp.StatusCode < 400))

/-- Go `fmt.Sprintf("h%d", i)`. -/
def headingLevel (i : Nat) : String :=
  "h" ++ Nat.repr i

/-- Body of the loop `for i := 1; i <= 6; i++`. -/
def countHeading (doc : Node) (analysis : PageAnalysis) (i : Nat) : PageAnalysis :=
  let level := headingLevel i
  { analysis with Headings := mapSet analysis.Headings level (Find doc (typeSelector level)).length }

/-- Body of the closure given to `doc.Find("a").Each`. -/
def eachLink (w : World) (baseURL : URL) (baseDomain : String)
    (analysis : PageAnalysis) (i : Nat) (s : Node) : PageAnalysis :=
  let href := (Attr s "href").1
  let found := (Attr s "href").2
  if !found || href == "" then analysis
  else
    match w.Parse href with
    | .error _ => analysis
    | .ok parsed =>
      let linkURL := if !parsed.IsAbs then w.ResolveReference baseURL parsed else parsed
      let isInternal := HasSuffix linkURL.Hostname baseDomain
      let probe := checkLinkAccessibility w i (w.URLString linkURL)
      let statusCode := probe.1
      let accessible := probe.2
      let analysis :=
        if !accessible then
          { analysis with
            Inaccessible := analysis.Inaccessible + 1
            BrokenLinks := analysis.BrokenLinks ++ [⟨w.URLString linkURL, statusCode⟩] }
        else analysis
      if isInternal then { analysis with InternalLinks := analysis.InternalLinks + 1 }
      else { analysis with ExternalLinks := analysis.ExternalLinks + 1 }

/-- Source `AnalyzePage`.  The pair is the Go result `(*PageAnalysis, error)`. -/
def AnalyzePage (w : World) (pageURL : String) : Run (Option PageAnalysis × Option GoError) :=
  match Get w pageURL with
  | .error err => .returns (none, some err)
  | .ok resp =>
    match w.NewDocumentFromReader resp.Body with
    | .error err => .returns (none, some err)
    | .ok doc =>
      let analysis : PageAnalysis :=
        { HTMLVersion := "", Title := "", Headings := [], InternalLinks := 0, ExternalLinks := 0,
          Inaccessible := 0, HasLoginForm := false, BrokenLinks := [] }
      let html := w.Html doc
      let analysis := { analysis with HTMLVersion := detectHTMLVersion html }
      let analysis := { analysis with Title := Text (Find doc (typeSelector "title")) }
      let analysis := (List.range' 1 6).foldl (countHeading doc) analysis
      let analysis :=
        { analysis with
          HasLoginForm := decide ((Find doc passwordInputSelector).length > 0) }
      match w.Parse pageURL with
      | .error _ => .panics
      | .ok baseURL =>
        let baseDomain := baseURL.Hostname
        let analysis :=
          (Find doc (typeSelector "a")).enum.foldl
            (fun acc p => eachLink w baseURL baseDomain acc p.1 p.2) analysis
        .returns (some analysis, none)

/-! ## Reading the result -/

/-- The address an anchor element stands for: its `href` is present, not empty
and parses; a reference without a scheme is resolved against the page. -/
def linkOf (w : World) (baseURL : URL) (s : Node) : Option URL :=
  if (Attr s "href").2 = true ∧ (Attr s "href").1 ≠ "" then
    match w.Parse (Attr s "href").1 with
    | .ok parsed => some (if parsed.IsAbs then parsed else w.ResolveReference baseURL parsed)
    | .error _ => none
  else none

/-- An anchor element whose `href` attribute is present, not empty and parses
as a URI reference. -/
def hasParseableHref (w : World) (s : Node) : Bool :=
  (Attr s "href").2 && decide ((Attr s "href").1 ≠ "") &&
    (match w.Parse (Attr s "href").1 with
     | .ok _ => true
     | .error _ => false)

/-- What the probe of the `i`-th anchor contributes to the broken links: nothing
for an anchor without a link or with a status below 400, the resolved address
with status 0 when there is no response, with the response status when it is
400 or above. -/
def brokenEntry (w : World) (baseURL : URL) (p : Nat × Node) : Option BrokenLink :=
  match linkOf w baseURL p.2 with
  | none => none
  | some u =>
    match w.Head p.1 (w.URLString u) with
    | .error _ => some ⟨w.URLString u, 0⟩
    | .ok resp =>
      if 400 ≤ resp.StatusCode then some ⟨w.URLString u, resp.StatusCode⟩ else none

/-- Internal link as the glossary words it: the host equals the page host or is
a subdomain of it, that is, ends with a dot followed by the page host. -/
def isSubdomainOrEqual (host pageHost : String) : Bool :=
  decide (host = pageHost ∨ ("." ++ pageHost).data <:+ host.data)

mutual
/-- Number of element nodes named `tag` among a node and all its descendants,
at any depth. -/
def countElements (tag : String) : Node → Nat
  | .mk t d _ cs =>
    (if t = NodeType.ElementNode ∧ d = tag then 1 else 0) + countElementsList tag cs
/-- The count `countElements` summed over a list of siblings. -/
def countElementsList (tag : String) : List Node → Nat
  | [] => 0
  | c :: cs => countElements tag c + countElementsList tag cs
end

/-- A node that is an element or has no children. -/
def elementOrLeaf (n : Node) : Bool :=
  decide (n.Typ = NodeType.ElementNode) || n.children.isEmpty

/-- Shape of the tree the HTML parser returns, as far as the root goes: the
root is the document node, and below it text, comment and doctype nodes have
no children. -/
def parsedShape (doc : Node) : Bool :=
  decide (doc.Typ = NodeType.DocumentNode) && doc.children.all elementOrLeaf

/-! ## Sample pages -/

/-- Element node. -/
def elem (tag : String) (attrs : List Attribute) (children : List Node) : Node :=
  .mk NodeType.ElementNode tag attrs children

/-- Text node. -/
def text (s : String) : Node :=
  .mk NodeType.TextNode s [] []

/-- Anchor element with an `href` attribute. -/
def anchor (href : String) : Node :=
  elem "a" [⟨"", "href", href⟩] [text "l"]

/-- Document node around `html/head/body`, without a doctype. -/
def page (head body : List Node) : Node :=
  .mk NodeType.DocumentNode "" [] [elem "html" [] [elem "head" [] head, elem "body" [] body]]

/-- Document node with the doctype `html` in front of `html/head/body`. -/
def pageHTML5 (head body : List Node) : Node :=
  .mk NodeType.DocumentNode "" []
    [.mk NodeType.DoctypeNode "html" [] [],
     elem "html" [] [elem "head" [] head, elem "body" [] body]]

/-- What `url.Parse` answers on the addresses of the sample pages. -/
def sampleParse (s : String) : Except GoError URL :=
  if s = "http://example.com/" then .ok ⟨"http", "", "example.com", "/", "", ""⟩
  else if s = "http://example.com/missing" then .ok ⟨"http", "", "example.com", "/missing", "", ""⟩
  else if s = "http://notexample.com/" then .ok ⟨"http", "", "notexample.com", "/", "", ""⟩
  else if s = "http://www.example.com/" then .ok ⟨"http", "", "www.example.com", "/", "", ""⟩
  else if s = "http://other.com/b" then .ok ⟨"http", "", "other.com", "/b", "", ""⟩
  else if s = "/a" then .ok ⟨"", "", "", "/a", "", ""⟩
  else if s = "javascript:void(0)" then .ok ⟨"javascript", "void(0)", "", "", "", ""⟩
  else if s = "http://[bad" then .error ⟨"missing ']' in host"⟩
  else .error ⟨"parse " ++ s⟩

/-- What `ResolveReference` answers for a reference that is an absolute path. -/
def sampleResolve (base ref : URL) : URL :=
  ⟨base.Scheme, "", base.Host, ref.Path, ref.RawQuery, ref.Fragment⟩

/-- What `(*URL).String` answers when nothing needs escaping and there is no
query or fragment. -/
def sampleString (u : URL) : String :=
  (if u.Scheme = "" then "" else u.Scheme ++ ":") ++
    (if u.Opaque ≠ "" then u.Opaque else (if u.Host ≠ "" then "//" ++ u.Host else "") ++ u.Path)

/-- Probe outcomes of the sample pages: `other.com/b` answers 404, the
`javascript:` address cannot be requested, every other address answers 200. -/
def sampleHead (_i : Nat) (url : String) : Except GoError Response :=
  if url = "http://other.com/b" then .ok ⟨404, ""⟩
  else if url = "javascript:void(0)" then .error ⟨"unsupported protocol scheme"⟩
  else .ok ⟨200, ""⟩

/-- Attributes as `html.Render` writes them when no value needs escaping. -/
def sampleRenderAttrs : List Attribute → String
  | [] => ""
  | a :: rest => " " ++ a.Key ++ "=\"" ++ a.Val ++ "\"" ++ sampleRenderAttrs rest

mutual
/-- What `html.Render` writes for a node of the sample pages, where no text
needs escaping and the doctype has no identifiers. -/
def sampleRender : Node → String
  | .mk t d a cs =>
    match t with
    | NodeType.ElementNode =>
      "<" ++ d ++ sampleRenderAttrs a ++ ">" ++ sampleRenderList cs ++ "</" ++ d ++ ">"
    | NodeType.TextNode => d
    | NodeType.CommentNode => "<!--" ++ d ++ "-->"
    | NodeType.DoctypeNode => "<!DOCTYPE " ++ d ++ ">"
    | _ => sampleRenderList cs
/-- The rendering of each node of a list of siblings, one after the other. -/
def sampleRenderList : List Node → String
  | [] => ""
  | c :: cs => sampleRender c ++ sampleRenderList cs
end

/-- A world in which every page address answers with `status` and a body that
parses to `doc`; `doc.Html()` renders the children of the document node. -/
def sampleWorld (status : Int) (doc : Node) : World where
  Parse := sampleParse
  ResolveReference := sampleResolve
  URLString := sampleString
  Do := fun _ => .ok ⟨status, "body"⟩
  Head := sampleHead
  NewDocumentFromReader := fun _ => .ok doc
  Html := fun d => sampleRenderList d.children

/-- A world in which the page cannot be reached. -/
def refusedWorld : World where
  Parse := sampleParse
  ResolveReference := sampleResolve
  URLString := sampleString
  Do := fun _ => .error ⟨"connection refused"⟩
  Head := sampleHead
  NewDocumentFromReader := fun _ => .error ⟨"no body"⟩
  Html := fun d => sampleRenderList d.children

/-- Page of scenario A: a title, a heading, a relative link and a link to
another site. -/
def pageA : Node :=
  pageHTML5 [elem "title" [] [text "T"]]
    [elem "h1" [] [text "x"], anchor "/a", anchor "http://other.com/b"]

/-- A page with seven anchors: the same relative link twice, an anchor without
`href`, one with an empty `href`, one whose `href` does not parse, a link that
answers 404 and a `javascript:` link. -/
def pageMixed : Node :=
  pageHTML5 []
    [anchor "/a", anchor "/a", elem "a" [] [text "l"], anchor "", anchor "http://[bad",
     anchor "http://other.com/b", anchor "javascript:void(0)"]

/-- A page with two title elements. -/
def pageTwoTitles : Node :=
  page [elem "title" [] [text "A"], elem "title" [] [text "B"]] []

/-- A page linking to a host that ends with the page host without being a
subdomain of it. -/
def pageLookalike : Node :=
  page [] [anchor "http://notexample.com/"]

/-- A page with a `javascript:` link. -/
def pageScript : Node :=
  page [] [anchor "javascript:void(0)"]

/-- A page with three broken links: a link that answers 404, a `javascript:`
link, and the first link again. -/
def pageThreeBroken : Node :=
  page [] [anchor "http://other.com/b", anchor "javascript:void(0)", anchor "http://other.com/b"]

/-- The URL that `url.Parse` answers for `javascript:void(0)`. -/
def scriptURL : URL :=
  ⟨"javascript", "void(0)", "", "", "", ""⟩

/-- The body a server sends with a 404 answer, parsed. -/
def pageNotFound : Node :=
  page [elem "title" [] [text "404 Not Found"]] [elem "h1" [] [text "Not Found"]]

/-- A page whose headings sit at different depths. -/
def pageNested : Node :=
  pageHTML5 []
    [elem "h1" [] [text "a"],
     elem "div" [] [elem "h2" [] [text "b"], elem "div" [] [elem "h2" [] [text "c"]]]]

/-- A page without a doctype whose script holds the text of one. -/
def pageQuoting : Node :=
  page [elem "script" [] [text "var d = \"<!DOCTYPE html>\";"]] []

/-- A document text that starts with the declaration of HTML 4.01 and quotes
the short declaration in a comment. -/
def htmlBoth : String :=
  "<!DOCTYPE HTML PUBLIC \"-//W3C//DTD HTML 4.01//EN\"><html><!-- <!DOCTYPE html> --></html>"

/-- The sample world of scenario A. -/
def worldA : World :=
  sampleWorld 200 pageA

/-- The address of the sample page, parsed. -/
def exampleURL : URL :=
  ⟨"http", "", "example.com", "/", "", ""⟩

/-! ## Strings -/

theorem containsChars_iff (sub l : List Char) : containsChars sub l = true ↔ sub <:+: l := by
  induction l with
  | nil =>
    simp only [containsChars, List.isPrefixOf_iff_prefix]
    constructor
    · intro h
      exact h.isInfix
    · intro h
      have : sub = [] := List.eq_nil_of_infix_nil h
      subst this
      exact List.prefix_refl _
  | cons c cs ih =>
    simp only [containsChars, Bool.or_eq_true, List.isPrefixOf_iff_prefix, ih]
    exact List.infix_cons_iff.symm

theorem Contains_iff (s substr : String) : Contains s substr = true ↔ substr.data <:+: s.data :=
  containsChars_iff _ _

theorem HasSuffix_iff (s suffix : String) : HasSuffix s suffix = true ↔ suffix.data <:+ s.data := by
  unfold HasSuffix
  exact List.isSuffixOf_iff_suffix

/-! ## The link loop -/

/-- One visit of the closure, field by field. -/
theorem eachLink_eq (w : World) (baseURL : URL) (baseDomain : String) (a : PageAnalysis)
    (i : Nat) (s : Node) :
    eachLink w baseURL baseDomain a i s =
      { a with
        Inaccessible := a.Inaccessible + (brokenEntry w baseURL (i, s)).toList.length
        BrokenLinks := a.BrokenLinks ++ (brokenEntry w baseURL (i, s)).toList
        InternalLinks := a.InternalLinks +
          (linkOf w baseURL s).toList.countP (fun u => HasSuffix u.Hostname baseDomain)
        ExternalLinks := a.ExternalLinks +
          (linkOf w baseURL s).toList.countP (fun u => !HasSuffix u.Hostname baseDomain) } := by
  obtain ⟨v, t, hd, il, el, ia, lf, bl⟩ := a
  unfold eachLink brokenEntry linkOf checkLinkAccessibility
  rcases hA : Attr s "href" with ⟨href, found⟩
  cases found
  · simp
  · by_cases hh : href = ""
    · simp [hh]
    · cases hp : w.Parse href with
      | error e => simp [hh, hp]
      | ok parsed =>
        have hu : (if (!parsed.IsAbs) = true then w.ResolveReference baseURL parsed else parsed)
            = (if parsed.IsAbs = true then parsed else w.ResolveReference baseURL parsed) := by
          cases parsed.IsAbs <;> simp
        simp only [hA, hh, hp, hu, Bool.not_true, Bool.false_or, beq_iff_eq, if_false,
          true_and, not_false_eq_true, if_true, ne_eq, and_self]
        generalize (if parsed.IsAbs = true then parsed else w.ResolveReference baseURL parsed) = u
        cases hs : HasSuffix u.Hostname baseDomain <;>
        cases hhd : w.Head i (w.URLString u) with
        | error e => simp [hs]
        | ok resp =>
          by_cases hc : resp.StatusCode < 400
          · have : ¬ (400 ≤ resp.StatusCode) := not_le.mpr hc
            simp [hs, hc, this]
          · have : 400 ≤ resp.StatusCode := not_lt.mp hc
            simp [hs, hc, this]

/-- The whole loop over the visited anchors, field by field. -/
theorem linkLoop_eq (w : World) (baseURL : URL) (baseDomain : String)
    (l : List (Nat × Node)) (a : PageAnalysis) :
    l.foldl (fun acc p => eachLink w baseURL baseDomain acc p.1 p.2) a =
      { a with
        Inaccessible := a.Inaccessible + (l.filterMap (brokenEntry w baseURL)).length
        BrokenLinks := a.BrokenLinks ++ l.filterMap (brokenEntry w baseURL)
        InternalLinks := a.InternalLinks +
          (l.filterMap (fun p => linkOf w baseURL p.2)).countP
            (fun u => HasSuffix u.Hostname baseDomain)
        ExternalLinks := a.ExternalLinks +
          (l.filterMap (fun p => linkOf w baseURL p.2)).countP
            (fun u => !HasSuffix u.Hostname baseDomain) } := by
  induction l generalizing a with
  | nil => simp
  | cons p rest ih =>
    obtain ⟨i, s⟩ := p
    rw [List.foldl_cons, ih, eachLink_eq]
    cases hbe : brokenEntry w baseURL (i, s) <;>
    cases hl : linkOf w baseURL s <;>
    simp [List.filterMap_cons, hbe, hl, List.countP_cons, Nat.add_assoc, Nat.add_comm,
      Nat.add_left_comm]

/-! ## The heading loop -/

/-- The heading loop only writes the `Headings` map. -/
theorem headingLoop_eq (doc : Node) (l : List Nat) (a : PageAnalysis) :
    l.foldl (countHeading doc) a =
      { a with
        Headings := l.foldl
          (fun m i => mapSet m (headingLevel i) (Find doc (typeSelector (headingLevel i))).length)
          a.Headings } := by
  induction l generalizing a with
  | nil => rfl
  | cons i rest ih =>
    rw [List.foldl_cons, ih]
    rfl

/-- The map the heading loop builds from the empty map. -/
theorem headings_eq (doc : Node) :
    (List.range' 1 6).foldl
        (fun m i => mapSet m (headingLevel i) (Find doc (typeSelector (headingLevel i))).length)
        ([] : GoMap) =
      [("h1", (Find doc (typeSelector "h1")).length), ("h2", (Find doc (typeSelector "h2")).length),
       ("h3", (Find doc (typeSelector "h3")).length), ("h4", (Find doc (typeSelector "h4")).length),
       ("h5", (Find doc (typeSelector "h5")).length), ("h6", (Find doc (typeSelector "h6")).length)] := by
  have h1 : headingLevel 1 = "h1" := by decide
  have h2 : headingLevel 2 = "h2" := by decide
  have h3 : headingLevel 3 = "h3" := by decide
  have h4 : headingLevel 4 = "h4" := by decide
  have h5 : headingLevel 5 = "h5" := by decide
  have h6 : headingLevel 6 = "h6" := by decide
  have hr : List.range' 1 6 = [1, 2, 3, 4, 5, 6] := by decide
  rw [hr]
  simp only [List.foldl_cons, List.foldl_nil, h1, h2, h3, h4, h5, h6, mapSet]
  simp

/-! ## The result of `AnalyzePage` -/

/-- A fetch that succeeds went through a successful `url.Parse` of the page
address. -/
theorem Get_ok_parse (w : World) (pageURL : String) (resp : Response)
    (hget : Get w pageURL = .ok resp) :
    ∃ baseURL, w.Parse pageURL = .ok baseURL ∧ w.Do baseURL = .ok resp := by
  unfold Get at hget
  cases hp : w.Parse pageURL with
  | error e => simp [hp] at hget
  | ok u => exact ⟨u, rfl, by simpa [hp] using hget⟩

/-- The value `AnalyzePage` returns when the page is fetched and parsed. -/
theorem AnalyzePage_ok (w : World) (pageURL : String) (resp : Response) (doc : Node)
    (baseURL : URL) (hget : Get w pageURL = .ok resp)
    (hdoc : w.NewDocumentFromReader resp.Body = .ok doc)
    (hbase : w.Parse pageURL = .ok baseURL) :
    AnalyzePage w pageURL = .returns (some
      { HTMLVersion := detectHTMLVersion (w.Html doc)
        Title := Text (Find doc (typeSelector "title"))
        Headings :=
          [("h1", (Find doc (typeSelector "h1")).length),
           ("h2", (Find doc (typeSelector "h2")).length),
           ("h3", (Find doc (typeSelector "h3")).length),
           ("h4", (Find doc (typeSelector "h4")).length),
           ("h5", (Find doc (typeSelector "h5")).length),
           ("h6", (Find doc (typeSelector "h6")).length)]
        InternalLinks :=
          ((Find doc (typeSelector "a")).enum.filterMap (fun p => linkOf w baseURL p.2)).countP
            (fun u => HasSuffix u.Hostname baseURL.Hostname)
        ExternalLinks :=
          ((Find doc (typeSelector "a")).enum.filterMap (fun p => linkOf w baseURL p.2)).countP
            (fun u => !HasSuffix u.Hostname baseURL.Hostname)
        Inaccessible :=
          ((Find doc (typeSelector "a")).enum.filterMap (brokenEntry w baseURL)).length
        HasLoginForm := decide ((Find doc passwordInputSelector).length > 0)
        BrokenLinks := (Find doc (typeSelector "a")).enum.filterMap (brokenEntry w baseURL) },
      none) := by
  unfold AnalyzePage
  simp only [hget, hdoc, hbase, linkLoop_eq, headingLoop_eq, headings_eq]
  simp

/-- A returned analysis comes from a fetched and parsed page, with a nil error. -/
theorem AnalyzePage_returns_inv (w : World) (pageURL : String) (a : PageAnalysis)
    (err : Option GoError) (h : AnalyzePage w pageURL = .returns (some a, err)) :
    ∃ resp doc baseURL, Get w pageURL = .ok resp ∧ w.NewDocumentFromReader resp.Body = .ok doc ∧
      w.Parse pageURL = .ok baseURL ∧ err = none := by
  cases hget : Get w pageURL with
  | error e =>
    unfold AnalyzePage at h
    simp [hget] at h
  | ok resp =>
    cases hdoc : w.NewDocumentFromReader resp.Body with
    | error e =>
      unfold AnalyzePage at h
      simp [hget, hdoc] at h
    | ok doc =>
      obtain ⟨baseURL, hbase, _⟩ := Get_ok_parse w pageURL resp hget
      rw [AnalyzePage_ok w pageURL resp doc baseURL hget hdoc hbase] at h
      simp only [Run.returns.injEq, Prod.mk.injEq] at h
      exact ⟨resp, doc, baseURL, rfl, hdoc, hbase, h.2.symm⟩

/-- The nil dereference of the page address is never reached. -/
theorem AnalyzePage_never_panics (w : World) (pageURL : String) :
    AnalyzePage w pageURL ≠ .panics := by
  cases hget : Get w pageURL with
  | error e =>
    unfold AnalyzePage
    simp [hget]
  | ok resp =>
    cases hdoc : w.NewDocumentFromReader resp.Body with
    | error e =>
      unfold AnalyzePage
      simp [hget, hdoc]
    | ok doc =>
      obtain ⟨baseURL, hbase, _⟩ := Get_ok_parse w pageURL resp hget
      rw [AnalyzePage_ok w pageURL resp doc baseURL hget hdoc hbase]
      simp

/-- Scenario A: an HTML5 page on `example.com` with title `T`, one `h1`, the
relative link `/a` that answers 200 and the link `http://other.com/b` that
answers 404. -/
theorem AnalyzePage_scenario_A :
    AnalyzePage worldA "http://example.com/"
      = .returns (some ⟨"HTML5", "T",
          [("h1", 1), ("h2", 0), ("h3", 0), ("h4", 0), ("h5", 0), ("h6", 0)],
          1, 1, 1, false, [⟨"http://other.com/b", 404⟩]⟩, none) :=
  rfl

/-! ## Lists of anchors -/

theorem filterMap_enumFrom_snd {α β : Type} (f : α → Option β) (l : List α) (n : Nat) :
    (l.enumFrom n).filterMap (fun p => f p.2) = l.filterMap f := by
  induction l generalizing n with
  | nil => rfl
  | cons x xs ih =>
    simp only [List.enumFrom_cons, List.filterMap_cons, ih]

theorem filterMap_enum_snd {α β : Type} (f : α → Option β) (l : List α) :
    l.enum.filterMap (fun p => f p.2) = l.filterMap f :=
  filterMap_enumFrom_snd f l 0

theorem countP_add_countP_not {α : Type} (p : α → Bool) (l : List α) :
    l.countP p + l.countP (fun x => !p x) = l.length := by
  induction l with
  | nil => rfl
  | cons x xs ih =>
    cases hx : p x <;> simp [List.countP_cons, hx] <;> omega

theorem linkOf_isSome (w : World) (baseURL : URL) (s : Node) :
    (linkOf w baseURL s).isSome = hasParseableHref w s := by
  unfold linkOf hasParseableHref
  rcases hA : Attr s "href" with ⟨href, found⟩
  cases found
  · simp
  · by_cases hh : href = ""
    · simp [hh]
    · cases hp : w.Parse href <;> simp [hh, hp]

theorem length_filterMap_linkOf (w : World) (baseURL : URL) (l : List Node) :
    (l.filterMap (linkOf w baseURL)).length = (l.filter (hasParseableHref w)).length := by
  induction l with
  | nil => rfl
  | cons s rest ih =>
    have hs := linkOf_isSome w baseURL s
    cases hl : linkOf w baseURL s with
    | none =>
      rw [hl] at hs
      simp [List.filterMap_cons, List.filter_cons, hl, ← hs, ih]
    | some u =>
      rw [hl] at hs
      simp [List.filterMap_cons, List.filter_cons, hl, ← hs, ih]

/-! ## Text and counts in the tree -/

theorem foldl_append_join (l : List String) (init : String) :
    l.foldl (fun r s => r ++ s) init = init ++ String.join l := by
  induction l generalizing init with
  | nil => simp [String.join]
  | cons x rest ih =>
    have hj : String.join (x :: rest) = x ++ String.join rest := by
      unfold String.join
      rw [List.foldl_cons, ih, ih ""]
      simp
    rw [List.foldl_cons, ih, hj, String.append_assoc]

theorem join_cons (x : String) (rest : List String) :
    String.join (x :: rest) = x ++ String.join rest := by
  unfold String.join
  rw [List.foldl_cons, foldl_append_join, foldl_append_join rest ""]
  simp

theorem foldl_text (l : List Node) (init : String) :
    l.foldl (fun buf n => buf ++ nodeText n) init = init ++ String.join (l.map nodeText) := by
  induction l generalizing init with
  | nil => simp [String.join]
  | cons n rest ih =>
    rw [List.foldl_cons, ih, List.map_cons, join_cons, String.append_assoc]

theorem Text_eq_join (sel : List Node) : Text sel = String.join (sel.map nodeText) := by
  unfold Text
  rw [foldl_text]
  simp

mutual
theorem MatchAll_length (tag : String) :
    ∀ n : Node, (MatchAll (typeSelector tag) n).length = countElements tag n
  | .mk t d a cs => by
    rw [MatchAll, countElements, List.length_append, MatchAllList_length tag cs]
    by_cases h : t = NodeType.ElementNode ∧ d = tag
    · simp [typeSelector, Node.Typ, Node.Data, h]
    · have h2 : ¬ (t = NodeType.ElementNode ∧ d = tag) := h
      simp only [typeSelector, Node.Typ, Node.Data, Bool.and_eq_true, decide_eq_true_eq, h,
        if_false, List.length_nil]
theorem MatchAllList_length (tag : String) :
    ∀ cs : List Node, (MatchAllList (typeSelector tag) cs).length = countElementsList tag cs
  | [] => by simp [MatchAllList, countElementsList]
  | c :: cs => by
    rw [MatchAllList, countElementsList, List.length_append, MatchAll_length tag c,
      MatchAllList_length tag cs]
end

theorem countElements_leaf (tag : String) (n : Node) (ht : n.Typ ≠ NodeType.ElementNode)
    (hl : n.children.isEmpty = true) : countElements tag n = 0 := by
  obtain ⟨t, d, a, cs⟩ := n
  simp only [Node.Typ] at ht
  simp only [Node.children, List.isEmpty_iff] at hl
  subst hl
  simp [countElements, countElementsList, ht]

theorem findIn_length (tag : String) (cs : List Node) (h : cs.all elementOrLeaf = true) :
    (findIn (typeSelector tag) cs).length = countElementsList tag cs := by
  induction cs with
  | nil => simp [findIn, countElementsList]
  | cons c rest ih =>
    simp only [List.all_cons, Bool.and_eq_true] at h
    rw [findIn, countElementsList, List.length_append, ih h.2]
    by_cases ht : c.Typ = NodeType.ElementNode
    · simp [ht, MatchAll_length]
    · have hleaf : c.children.isEmpty = true := by
        have := h.1
        simpa [elementOrLeaf, ht] using this
      simp [ht, countElements_leaf tag c ht hleaf]

/-- On a parsed tree the selection of a tag name has as many nodes as there
are elements of that name in the document, at any depth. -/
theorem Find_length (tag : String) (doc : Node) (h : parsedShape doc = true) :
    (Find doc (typeSelector tag)).length = countElements tag doc := by
  obtain ⟨t, d, a, cs⟩ := doc
  simp only [parsedShape, Node.Typ, Node.children, Bool.and_eq_true, decide_eq_true_eq] at h
  obtain ⟨ht, hc⟩ := h
  subst ht
  rw [Find, Node.children, findIn_length tag cs hc, countElements]
  simp

/-! ## Failure of the fetch -/

/-- C1, as stated, fails: a page address that answers with status 404 is not a
failed fetch for `AnalyzePage`; the body of that answer is parsed and
analysed, and the result is a `PageAnalysis` with a nil error. -/
theorem AnalyzePage_analyses_status_404 :
    Get (sampleWorld 404 pageNotFound) "http://example.com/missing"
        = .ok ⟨404, "body"⟩ ∧
      AnalyzePage (sampleWorld 404 pageNotFound) "http://example.com/missing"
        = .returns (some ⟨"Unknown", "404 Not Found",
            [("h1", 1), ("h2", 0), ("h3", 0), ("h4", 0), ("h5", 0), ("h6", 0)],
            0, 0, 0, false, []⟩, none) :=
  ⟨rfl, rfl⟩

/-- C1 (amended): when `http.Get` returns an error, `AnalyzePage` returns that
error and no `PageAnalysis`; when `http.Get` returns a response, whatever its
status code, and the body parses, `AnalyzePage` returns a nil error and the
analysis of that body: version, title, headings, login form, link counts and
broken links are those of the parsed document, and none of them depends on
the status code. -/
theorem AnalyzePage_fetch_outcome (w : World) (pageURL : String) :
    (∀ err, Get w pageURL = .error err → AnalyzePage w pageURL = .returns (none, some err)) ∧
      (∀ resp doc baseURL, Get w pageURL = .ok resp →
        w.NewDocumentFromReader resp.Body = .ok doc → w.Parse pageURL = .ok baseURL →
        AnalyzePage w pageURL = .returns (some
          { HTMLVersion := detectHTMLVersion (w.Html doc)
            Title := Text (Find doc (typeSelector "title"))
            Headings :=
              [("h1", (Find doc (typeSelector "h1")).length),
               ("h2", (Find doc (typeSelector "h2")).length),
               ("h3", (Find doc (typeSelector "h3")).length),
               ("h4", (Find doc (typeSelector "h4")).length),
               ("h5", (Find doc (typeSelector "h5")).length),
               ("h6", (Find doc (typeSelector "h6")).length)]
            InternalLinks :=
              (((Find doc (typeSelector "a")).filterMap (linkOf w baseURL)).filter
                (fun u => HasSuffix u.Hostname baseURL.Hostname)).length
            ExternalLinks :=
              (((Find doc (typeSelector "a")).filterMap (linkOf w baseURL)).filter
                (fun u => !HasSuffix u.Hostname baseURL.Hostname)).length
            Inaccessible :=
              ((Find doc (typeSelector "a")).enum.filterMap (brokenEntry w baseURL)).length
            HasLoginForm := decide ((Find doc passwordInputSelector).length > 0)
            BrokenLinks := (Find doc (typeSelector "a")).enum.filterMap (brokenEntry w baseURL) },
          none)) := by
  constructor
  · intro err hget
    unfold AnalyzePage
    simp [hget]
  · intro resp doc baseURL hget hdoc hbase
    rw [AnalyzePage_ok w pageURL resp doc baseURL hget hdoc hbase, filterMap_enum_snd,
      List.countP_eq_length_filter, List.countP_eq_length_filter]

/-- C1 (amended), on a page that refuses the connection and on a page that
answers with status 500 and a body with seven anchors. -/
theorem AnalyzePage_fetch_outcome_witness :
    (Get refusedWorld "http://example.com/" = .error ⟨"connection refused"⟩ ∧
      AnalyzePage refusedWorld "http://example.com/"
        = .returns (none, some ⟨"connection refused"⟩)) ∧
      (Get (sampleWorld 500 pageMixed) "http://example.com/" = .ok ⟨500, "body"⟩ ∧
        AnalyzePage (sampleWorld 500 pageMixed) "http://example.com/"
          = .returns (some ⟨"HTML5", "",
              [("h1", 0), ("h2", 0), ("h3", 0), ("h4", 0), ("h5", 0), ("h6", 0)],
              2, 2, 2, false,
              [⟨"http://other.com/b", 404⟩, ⟨"javascript:void(0)", 0⟩]⟩, none)) :=
  ⟨⟨rfl, (AnalyzePage_fetch_outcome refusedWorld "http://example.com/").1 _ rfl⟩,
    ⟨rfl, (AnalyzePage_fetch_outcome (sampleWorld 500 pageMixed) "http://example.com/").2
      ⟨500, "body"⟩ pageMixed exampleURL rfl rfl rfl⟩⟩

/-- C2: when the fetch and the parse of the page succeed, `AnalyzePage` returns
a `PageAnalysis` and a nil error, whatever the probes of the links answer; and
whether `AnalyzePage` returns an error, and which, is the same for every
assignment of probe outcomes. -/
theorem AnalyzePage_never_fails_on_links (w : World) (pageURL : String)
    (probes : Nat → String → Except GoError Response) :
    (∀ resp doc, Get w pageURL = .ok resp → w.NewDocumentFromReader resp.Body = .ok doc →
        ∃ a, AnalyzePage { w with Head := probes } pageURL = .returns (some a, none)) ∧
      (∀ err, AnalyzePage { w with Head := probes } pageURL = .returns (none, some err) ↔
        AnalyzePage w pageURL = .returns (none, some err)) := by
  constructor
  · intro resp doc hget hdoc
    obtain ⟨baseURL, hbase, _⟩ := Get_ok_parse w pageURL resp hget
    exact ⟨_, AnalyzePage_ok { w with Head := probes } pageURL resp doc baseURL hget hdoc hbase⟩
  · intro err
    cases hget : Get w pageURL with
    | error e =>
      have hget2 : Get { w with Head := probes } pageURL = .error e := hget
      unfold AnalyzePage
      simp [hget, hget2]
    | ok resp =>
      have hget2 : Get { w with Head := probes } pageURL = .ok resp := hget
      cases hdoc : w.NewDocumentFromReader resp.Body with
      | error e =>
        have hdoc2 : ({ w with Head := probes } : World).NewDocumentFromReader resp.Body
            = .error e := hdoc
        unfold AnalyzePage
        simp [hget, hget2, hdoc, hdoc2]
      | ok doc =>
        obtain ⟨baseURL, hbase, _⟩ := Get_ok_parse w pageURL resp hget
        rw [AnalyzePage_ok w pageURL resp doc baseURL hget hdoc hbase,
          AnalyzePage_ok { w with Head := probes } pageURL resp doc baseURL hget2 hdoc hbase]
        simp

/-- C2, on the page with seven anchors with every probe timing out. -/
theorem AnalyzePage_never_fails_on_links_witness :
    Get (sampleWorld 200 pageMixed) "http://example.com/" = .ok ⟨200, "body"⟩ ∧
      (sampleWorld 200 pageMixed).NewDocumentFromReader "body" = .ok pageMixed ∧
      ∃ a, AnalyzePage { sampleWorld 200 pageMixed with Head := fun _ _ => .error ⟨"timeout"⟩ }
          "http://example.com/" = .returns (some a, none) :=
  ⟨rfl, rfl, (AnalyzePage_never_fails_on_links (sampleWorld 200 pageMixed) "http://example.com/"
    (fun _ _ => .error ⟨"timeout"⟩)).1 ⟨200, "body"⟩ pageMixed rfl rfl⟩

/-! ## Links -/

/-- C3: `BrokenLinks` is, in the order of the anchors in the document, the list
of the links whose probe had no response (status 0) or a status of 400 or
above (that status), each with its resolved address; no other link is in it. -/
theorem AnalyzePage_BrokenLinks (w : World) (pageURL : String) (resp : Response) (doc : Node)
    (baseURL : URL) (hget : Get w pageURL = .ok resp)
    (hdoc : w.NewDocumentFromReader resp.Body = .ok doc)
    (hbase : w.Parse pageURL = .ok baseURL) :
    ∃ a, AnalyzePage w pageURL = .returns (some a, none) ∧
      a.BrokenLinks = (Find doc (typeSelector "a")).enum.filterMap (brokenEntry w baseURL) :=
  ⟨_, AnalyzePage_ok w pageURL resp doc baseURL hget hdoc hbase, rfl⟩

/-- C3, on the page with seven anchors: the link that answers 404 and the link
without a response are the broken links, in that order. -/
theorem AnalyzePage_BrokenLinks_witness :
    (Find pageMixed (typeSelector "a")).enum.filterMap
        (brokenEntry (sampleWorld 200 pageMixed) exampleURL)
        = [⟨"http://other.com/b", 404⟩, ⟨"javascript:void(0)", 0⟩] ∧
      ∃ a, AnalyzePage (sampleWorld 200 pageMixed) "http://example.com/"
          = .returns (some a, none) ∧
        a.BrokenLinks
          = (Find pageMixed (typeSelector "a")).enum.filterMap
              (brokenEntry (sampleWorld 200 pageMixed) exampleURL) :=
  ⟨rfl, AnalyzePage_BrokenLinks (sampleWorld 200 pageMixed) "http://example.com/" ⟨200, "body"⟩
    pageMixed exampleURL rfl rfl rfl⟩

/-- C4: `InternalLinks + ExternalLinks` is the number of anchor elements whose
`href` is present, not empty and parses, each occurrence counted; the probes do
not enter the count. -/
theorem AnalyzePage_link_total (w : World) (pageURL : String) (resp : Response) (doc : Node)
    (hget : Get w pageURL = .ok resp)
    (hdoc : w.NewDocumentFromReader resp.Body = .ok doc) :
    ∃ a, AnalyzePage w pageURL = .returns (some a, none) ∧
      a.InternalLinks + a.ExternalLinks
        = ((Find doc (typeSelector "a")).filter (hasParseableHref w)).length := by
  obtain ⟨baseURL, hbase, _⟩ := Get_ok_parse w pageURL resp hget
  refine ⟨_, AnalyzePage_ok w pageURL resp doc baseURL hget hdoc hbase, ?_⟩
  simp only []
  rw [countP_add_countP_not, filterMap_enum_snd, length_filterMap_linkOf]

/-- C4, on the page with seven anchors: four of them have an `href` that is
present, not empty and parses, two of these are the same link and two are
broken. -/
theorem AnalyzePage_link_total_witness :
    (Find pageMixed (typeSelector "a")).length = 7 ∧
      ((Find pageMixed (typeSelector "a")).filter
        (hasParseableHref (sampleWorld 200 pageMixed))).length = 4 ∧
      ∃ a, AnalyzePage (sampleWorld 200 pageMixed) "http://example.com/"
          = .returns (some a, none) ∧
        a.InternalLinks + a.ExternalLinks
          = ((Find pageMixed (typeSelector "a")).filter
              (hasParseableHref (sampleWorld 200 pageMixed))).length :=
  ⟨rfl, rfl, AnalyzePage_link_total (sampleWorld 200 pageMixed) "http://example.com/"
    ⟨200, "body"⟩ pageMixed rfl rfl⟩

/-- C5: in every `PageAnalysis` that `AnalyzePage` returns, `Inaccessible` is the
length of `BrokenLinks`. -/
theorem AnalyzePage_Inaccessible (w : World) (pageURL : String) (a : PageAnalysis)
    (err : Option GoError) (h : AnalyzePage w pageURL = .returns (some a, err)) :
    a.Inaccessible = a.BrokenLinks.length := by
  obtain ⟨resp, doc, baseURL, hget, hdoc, hbase, _⟩ := AnalyzePage_returns_inv w pageURL a err h
  rw [AnalyzePage_ok w pageURL resp doc baseURL hget hdoc hbase] at h
  simp only [Run.returns.injEq, Prod.mk.injEq, Option.some.injEq] at h
  rw [← h.1]

/-- C5, on the page with seven anchors. -/
theorem AnalyzePage_Inaccessible_witness :
    AnalyzePage (sampleWorld 200 pageMixed) "http://example.com/"
        = .returns (some ⟨"HTML5", "",
            [("h1", 0), ("h2", 0), ("h3", 0), ("h4", 0), ("h5", 0), ("h6", 0)],
            2, 2, 2, false, [⟨"http://other.com/b", 404⟩, ⟨"javascript:void(0)", 0⟩]⟩, none) ∧
      (2 : Nat)
        = [(⟨"http://other.com/b", 404⟩ : BrokenLink), ⟨"javascript:void(0)", 0⟩].length :=
  ⟨rfl, AnalyzePage_Inaccessible (sampleWorld 200 pageMixed) "http://example.com/" _ none rfl⟩

/-- C6, as stated, fails: on a page of host `example.com`, a link to
`notexample.com`, which is neither that host nor a subdomain of it, is counted
as internal. -/
theorem AnalyzePage_lookalike_host_is_internal :
    linkOf (sampleWorld 200 pageLookalike) exampleURL
        (anchor "http://notexample.com/") = some ⟨"http", "", "notexample.com", "/", "", ""⟩ ∧
      URL.Hostname ⟨"http", "", "notexample.com", "/", "", ""⟩ = "notexample.com" ∧
      exampleURL.Hostname = "example.com" ∧
      isSubdomainOrEqual "notexample.com" "example.com" = false ∧
      AnalyzePage (sampleWorld 200 pageLookalike) "http://example.com/"
        = .returns (some ⟨"Unknown", "",
            [("h1", 0), ("h2", 0), ("h3", 0), ("h4", 0), ("h5", 0), ("h6", 0)],
            1, 0, 0, false, []⟩, none) := by
  refine ⟨rfl, rfl, rfl, ?_, rfl⟩
  decide

/-- C6 (amended): a link is counted as internal exactly when the host name of
its resolved address ends with the host name of the page, as a string, and as
external otherwise; a host equal to the page host or a subdomain of it ends
with the page host. -/
theorem AnalyzePage_internal_external (w : World) (pageURL : String) (resp : Response)
    (doc : Node) (baseURL : URL) (hget : Get w pageURL = .ok resp)
    (hdoc : w.NewDocumentFromReader resp.Body = .ok doc)
    (hbase : w.Parse pageURL = .ok baseURL) :
    ∃ a, AnalyzePage w pageURL = .returns (some a, none) ∧
      a.InternalLinks
        = (((Find doc (typeSelector "a")).filterMap (linkOf w baseURL)).filter
            (fun u => decide (baseURL.Hostname.data <:+ u.Hostname.data))).length ∧
      a.ExternalLinks
        = (((Find doc (typeSelector "a")).filterMap (linkOf w baseURL)).filter
            (fun u => decide (¬ baseURL.Hostname.data <:+ u.Hostname.data))).length ∧
      ∀ host, isSubdomainOrEqual host baseURL.Hostname = true →
        baseURL.Hostname.data <:+ host.data := by
  have hp : (fun u : URL => HasSuffix u.Hostname baseURL.Hostname)
      = (fun u : URL => decide (baseURL.Hostname.data <:+ u.Hostname.data)) := by
    funext u
    rw [Bool.eq_iff_iff, HasSuffix_iff]
    simp
  have hn : (fun u : URL => !HasSuffix u.Hostname baseURL.Hostname)
      = (fun u : URL => decide (¬ baseURL.Hostname.data <:+ u.Hostname.data)) := by
    funext u
    rw [Bool.eq_iff_iff]
    simp [← HasSuffix_iff]
  refine ⟨_, AnalyzePage_ok w pageURL resp doc baseURL hget hdoc hbase, ?_, ?_, ?_⟩
  · simp only []
    rw [filterMap_enum_snd, hp, List.countP_eq_length_filter]
  · simp only []
    rw [filterMap_enum_snd, hn, List.countP_eq_length_filter]
  · intro host h
    simp only [isSubdomainOrEqual, decide_eq_true_eq] at h
    rcases h with h | h
    · rw [h]
    · have h1 : baseURL.Hostname.data <:+ ("." ++ baseURL.Hostname).data := by
        rw [String.data_append]
        exact List.suffix_append _ _
      exact h1.trans h

/-- C6 (amended), on the page that links to `notexample.com`. -/
theorem AnalyzePage_internal_external_witness :
    ∃ a, AnalyzePage (sampleWorld 200 pageLookalike) "http://example.com/"
        = .returns (some a, none) ∧
      a.InternalLinks
        = (((Find pageLookalike (typeSelector "a")).filterMap
              (linkOf (sampleWorld 200 pageLookalike) exampleURL)).filter
            (fun u => decide (exampleURL.Hostname.data <:+ u.Hostname.data))).length ∧
      a.ExternalLinks
        = (((Find pageLookalike (typeSelector "a")).filterMap
              (linkOf (sampleWorld 200 pageLookalike) exampleURL)).filter
            (fun u => decide (¬ exampleURL.Hostname.data <:+ u.Hostname.data))).length ∧
      ∀ host, isSubdomainOrEqual host exampleURL.Hostname = true →
        exampleURL.Hostname.data <:+ host.data :=
  AnalyzePage_internal_external (sampleWorld 200 pageLookalike)
    "http://example.com/" ⟨200, "body"⟩ pageLookalike exampleURL rfl rfl rfl

/-! ## Version of the document -/

/-- C7, as stated, fails: a text that begins with neither declaration is
"HTML5" when the short declaration occurs further down, and a text that begins
with the declaration of HTML 4 is "HTML5" as well when it does. -/
theorem detectHTMLVersion_looks_past_the_start :
    (sampleWorld 200 pageQuoting).Html pageQuoting
        = "<html><head><script>var d = \"<!DOCTYPE html>\";</script></head><body></body></html>" ∧
      HasPrefix ((sampleWorld 200 pageQuoting).Html pageQuoting) "<!DOCTYPE html>" = false ∧
      HasPrefix ((sampleWorld 200 pageQuoting).Html pageQuoting) "<!DOCTYPE HTML PUBLIC" = false ∧
      detectHTMLVersion ((sampleWorld 200 pageQuoting).Html pageQuoting) = "HTML5" ∧
      HasPrefix htmlBoth "<!DOCTYPE HTML PUBLIC" = true ∧
      detectHTMLVersion htmlBoth = "HTML5" := by
  decide

/-- C7 (amended): `detectHTMLVersion` decides by what the text contains, at any
position: "HTML5" exactly when it contains `<!DOCTYPE html>`, "HTML4" exactly
when it does not and contains `<!DOCTYPE HTML PUBLIC`, "Unknown" exactly when
it contains neither. -/
theorem detectHTMLVersion_spec (html : String) :
    (detectHTMLVersion html = "HTML5" ↔ "<!DOCTYPE html>".data <:+: html.data) ∧
      (detectHTMLVersion html = "HTML4" ↔
        ¬ "<!DOCTYPE html>".data <:+: html.data ∧ "<!DOCTYPE HTML PUBLIC".data <:+: html.data) ∧
      (detectHTMLVersion html = "Unknown" ↔
        ¬ "<!DOCTYPE html>".data <:+: html.data ∧
          ¬ "<!DOCTYPE HTML PUBLIC".data <:+: html.data) := by
  unfold detectHTMLVersion
  by_cases h5 : "<!DOCTYPE html>".data <:+: html.data
  · have c5 : Contains html "<!DOCTYPE html>" = true := (Contains_iff _ _).mpr h5
    simp only [c5, if_true, h5, not_true_eq_false, false_and, true_iff]
    decide
  · have c5 : ¬ Contains html "<!DOCTYPE html>" = true := fun h => h5 ((Contains_iff _ _).mp h)
    by_cases h4 : "<!DOCTYPE HTML PUBLIC".data <:+: html.data
    · have c4 : Contains html "<!DOCTYPE HTML PUBLIC" = true := (Contains_iff _ _).mpr h4
      simp only [c5, c4, if_true, if_false, h5, h4, not_true_eq_false, not_false_eq_true,
        and_self, and_false, iff_false, iff_true]
      decide
    · have c4 : ¬ Contains html "<!DOCTYPE HTML PUBLIC" = true :=
        fun h => h4 ((Contains_iff _ _).mp h)
      simp only [c5, c4, if_false, h5, h4, not_false_eq_true, and_self, and_false, iff_false,
        iff_true]
      decide

/-! ## Links with a scheme that is not a network scheme -/

/-- C8, as stated, fails: the anchor `javascript:void(0)` is counted as an
external link, is probed, and when the probe has no response it is in
`BrokenLinks` with status 0 and in `Inaccessible`. -/
theorem AnalyzePage_counts_javascript_link :
    sampleParse "javascript:void(0)" = .ok ⟨"javascript", "void(0)", "", "", "", ""⟩ ∧
      AnalyzePage (sampleWorld 200 pageScript) "http://example.com/"
        = .returns (some ⟨"Unknown", "",
            [("h1", 0), ("h2", 0), ("h3", 0), ("h4", 0), ("h5", 0), ("h6", 0)],
            0, 1, 1, false, [⟨"javascript:void(0)", 0⟩]⟩, none) :=
  ⟨rfl, rfl⟩

/-- C8 (amended): an anchor whose `href` parses to a URL with a scheme, network
scheme or not, is a link like any other.  It adds exactly one to
`InternalLinks + ExternalLinks`.  It is probed at its own address, not
resolved against the page.  When the probe has no response (status 0) or a
status of 400 or above (that status), its entry stands in `BrokenLinks`
between the entries of the anchors before it and those of the anchors after
it, and `Inaccessible` counts it once on top of them; when the probe answers
with a status below 400 it adds nothing to either. -/
theorem AnalyzePage_scheme_link (w : World) (pageURL : String) (resp : Response) (doc : Node)
    (baseURL : URL) (hget : Get w pageURL = .ok resp)
    (hdoc : w.NewDocumentFromReader resp.Body = .ok doc)
    (hbase : w.Parse pageURL = .ok baseURL)
    (before after : List Node) (s : Node) (href : String) (u : URL)
    (hsel : Find doc (typeSelector "a") = before ++ s :: after)
    (hattr : Attr s "href" = (href, true)) (hne : href ≠ "")
    (hparse : w.Parse href = .ok u) (hscheme : u.Scheme ≠ "") :
    ∃ a, AnalyzePage w pageURL = .returns (some a, none) ∧
      a.InternalLinks + a.ExternalLinks
        = (before.filter (hasParseableHref w)).length + 1
          + (after.filter (hasParseableHref w)).length ∧
      (∀ e, w.Head before.length (w.URLString u) = .error e →
        a.BrokenLinks
            = before.enum.filterMap (brokenEntry w baseURL) ++ ⟨w.URLString u, 0⟩ ::
              (after.enumFrom (before.length + 1)).filterMap (brokenEntry w baseURL) ∧
          a.Inaccessible
            = (before.enum.filterMap (brokenEntry w baseURL)).length + 1
              + ((after.enumFrom (before.length + 1)).filterMap (brokenEntry w baseURL)).length) ∧
      (∀ r, w.Head before.length (w.URLString u) = .ok r → 400 ≤ r.StatusCode →
        a.BrokenLinks
            = before.enum.filterMap (brokenEntry w baseURL) ++ ⟨w.URLString u, r.StatusCode⟩ ::
              (after.enumFrom (before.length + 1)).filterMap (brokenEntry w baseURL) ∧
          a.Inaccessible
            = (before.enum.filterMap (brokenEntry w baseURL)).length + 1
              + ((after.enumFrom (before.length + 1)).filterMap (brokenEntry w baseURL)).length) ∧
      (∀ r, w.Head before.length (w.URLString u) = .ok r → r.StatusCode < 400 →
        a.BrokenLinks
            = before.enum.filterMap (brokenEntry w baseURL) ++
              (after.enumFrom (before.length + 1)).filterMap (brokenEntry w baseURL) ∧
          a.Inaccessible
            = (before.enum.filterMap (brokenEntry w baseURL)).length
              + ((after.enumFrom (before.length + 1)).filterMap (brokenEntry w baseURL)).length) := by
  have hlink : linkOf w baseURL s = some u := by
    have habs : u.IsAbs = true := by
      simp [URL.IsAbs, hscheme]
    simp [linkOf, hattr, hne, hparse, habs]
  have hhas : hasParseableHref w s = true := by
    rw [← linkOf_isSome w baseURL s, hlink]
    rfl
  have hsplit : (Find doc (typeSelector "a")).enum.filterMap (brokenEntry w baseURL)
      = before.enum.filterMap (brokenEntry w baseURL)
        ++ ((brokenEntry w baseURL (before.length, s)).toList
          ++ (after.enumFrom (before.length + 1)).filterMap (brokenEntry w baseURL)) := by
    rw [hsel, List.enum_append, List.filterMap_append, List.enumFrom_cons, List.filterMap_cons]
    cases brokenEntry w baseURL (before.length, s) <;> rfl
  refine ⟨_, AnalyzePage_ok w pageURL resp doc baseURL hget hdoc hbase, ?_, ?_, ?_, ?_⟩
  · simp only []
    rw [countP_add_countP_not, filterMap_enum_snd, length_filterMap_linkOf, hsel]
    simp [List.filter_cons, hhas]
    omega
  · intro e he
    have hb : brokenEntry w baseURL (before.length, s) = some ⟨w.URLString u, 0⟩ := by
      simp [brokenEntry, hlink, he]
    simp only [hsplit, hb]
    refine ⟨rfl, ?_⟩
    simp [List.length_append]
    omega
  · intro r hr h400
    have hb : brokenEntry w baseURL (before.length, s)
        = some ⟨w.URLString u, r.StatusCode⟩ := by
      simp [brokenEntry, hlink, hr, h400]
    simp only [hsplit, hb]
    refine ⟨rfl, ?_⟩
    simp [List.length_append]
    omega
  · intro r hr hlt
    have hb : brokenEntry w baseURL (before.length, s) = none := by
      have : ¬ (400 ≤ r.StatusCode) := not_le.mpr hlt
      simp [brokenEntry, hlink, hr, this]
    simp only [hsplit, hb]
    refine ⟨rfl, ?_⟩
    simp [List.length_append]

/-- C8 (amended), on the page with three broken links, the `javascript:` link
in the middle: all three are in `BrokenLinks`, in document order, and
`Inaccessible` is 3. -/
theorem AnalyzePage_scheme_link_witness :
    AnalyzePage (sampleWorld 200 pageThreeBroken) "http://example.com/"
        = .returns (some ⟨"Unknown", "",
            [("h1", 0), ("h2", 0), ("h3", 0), ("h4", 0), ("h5", 0), ("h6", 0)],
            0, 3, 3, false,
            [⟨"http://other.com/b", 404⟩, ⟨"javascript:void(0)", 0⟩,
             ⟨"http://other.com/b", 404⟩]⟩, none) ∧
      sampleHead 1 "javascript:void(0)" = .error ⟨"unsupported protocol scheme"⟩ ∧
      ∃ a, AnalyzePage (sampleWorld 200 pageThreeBroken) "http://example.com/"
          = .returns (some a, none) ∧
        a.InternalLinks + a.ExternalLinks
          = ([anchor "http://other.com/b"].filter
              (hasParseableHref (sampleWorld 200 pageThreeBroken))).length + 1
            + ([anchor "http://other.com/b"].filter
              (hasParseableHref (sampleWorld 200 pageThreeBroken))).length ∧
        a.BrokenLinks
          = [anchor "http://other.com/b"].enum.filterMap
              (brokenEntry (sampleWorld 200 pageThreeBroken) exampleURL)
            ++ ⟨"javascript:void(0)", 0⟩ ::
              ([anchor "http://other.com/b"].enumFrom 2).filterMap
                (brokenEntry (sampleWorld 200 pageThreeBroken) exampleURL) ∧
        a.Inaccessible
          = ([anchor "http://other.com/b"].enum.filterMap
              (brokenEntry (sampleWorld 200 pageThreeBroken) exampleURL)).length + 1
            + (([anchor "http://other.com/b"].enumFrom 2).filterMap
              (brokenEntry (sampleWorld 200 pageThreeBroken) exampleURL)).length := by
  refine ⟨rfl, rfl, ?_⟩
  obtain ⟨a, hret, hsum, herr, _, _⟩ :=
    AnalyzePage_scheme_link (sampleWorld 200 pageThreeBroken) "http://example.com/"
      ⟨200, "body"⟩ pageThreeBroken exampleURL rfl rfl rfl
      [anchor "http://other.com/b"] [anchor "http://other.com/b"]
      (anchor "javascript:void(0)") "javascript:void(0)" scriptURL rfl rfl (by decide) rfl
      (by decide)
  have h := herr ⟨"unsupported protocol scheme"⟩ rfl
  exact ⟨a, hret, hsum, h.1, h.2⟩

/-! ## Title and headings -/

/-- C9, as stated, fails: on a page with two title elements the title is the
text of both, one after the other, not the text of the first. -/
theorem AnalyzePage_joins_two_titles :
    Find pageTwoTitles (typeSelector "title")
        = [elem "title" [] [text "A"], elem "title" [] [text "B"]] ∧
      nodeText (elem "title" [] [text "A"]) = "A" ∧
      AnalyzePage (sampleWorld 200 pageTwoTitles) "http://example.com/"
        = .returns (some ⟨"Unknown", "AB",
            [("h1", 0), ("h2", 0), ("h3", 0), ("h4", 0), ("h5", 0), ("h6", 0)],
            0, 0, 0, false, []⟩, none) :=
  ⟨rfl, rfl, rfl⟩

/-- C9 (amended): `Title` is the text content of all the title elements of the
document, concatenated in document order: the empty string when there is
none, the text of the title element when there is one. -/
theorem AnalyzePage_Title (w : World) (pageURL : String) (resp : Response) (doc : Node)
    (hget : Get w pageURL = .ok resp)
    (hdoc : w.NewDocumentFromReader resp.Body = .ok doc) :
    ∃ a, AnalyzePage w pageURL = .returns (some a, none) ∧
      a.Title = String.join ((Find doc (typeSelector "title")).map nodeText) ∧
      (Find doc (typeSelector "title") = [] → a.Title = "") ∧
      (∀ t, Find doc (typeSelector "title") = [t] → a.Title = nodeText t) := by
  obtain ⟨baseURL, hbase, _⟩ := Get_ok_parse w pageURL resp hget
  refine ⟨_, AnalyzePage_ok w pageURL resp doc baseURL hget hdoc hbase, ?_, ?_, ?_⟩
  · exact Text_eq_join _
  · intro h
    simp only [h]
    rfl
  · intro t h
    simp only [h, Text, List.foldl_cons, List.foldl_nil]
    simp

/-- C9 (amended), on the page of scenario A, which has one title element. -/
theorem AnalyzePage_Title_witness :
    Find pageA (typeSelector "title") = [elem "title" [] [text "T"]] ∧
      ∃ a, AnalyzePage worldA "http://example.com/" = .returns (some a, none) ∧
        a.Title = String.join ((Find pageA (typeSelector "title")).map nodeText) ∧
        (Find pageA (typeSelector "title") = [] → a.Title = "") ∧
        (∀ t, Find pageA (typeSelector "title") = [t] → a.Title = nodeText t) :=
  ⟨rfl, AnalyzePage_Title worldA "http://example.com/" ⟨200, "body"⟩ pageA rfl rfl⟩

/-- C10: the `Headings` map of a returned analysis has exactly the six keys
`h1` to `h6`, and each maps to the number of elements of that name in the
document, at any depth, which is 0 for a level that does not occur. -/
theorem AnalyzePage_Headings (w : World) (pageURL : String) (resp : Response) (doc : Node)
    (hget : Get w pageURL = .ok resp)
    (hdoc : w.NewDocumentFromReader resp.Body = .ok doc)
    (hshape : parsedShape doc = true) :
    ∃ a, AnalyzePage w pageURL = .returns (some a, none) ∧
      mapKeys a.Headings = ["h1", "h2", "h3", "h4", "h5", "h6"] ∧
      mapLen a.Headings = 6 ∧
      ∀ k ∈ ["h1", "h2", "h3", "h4", "h5", "h6"], mapGet a.Headings k = countElements k doc := by
  obtain ⟨baseURL, hbase, _⟩ := Get_ok_parse w pageURL resp hget
  refine ⟨_, AnalyzePage_ok w pageURL resp doc baseURL hget hdoc hbase, rfl, rfl, ?_⟩
  intro k hk
  simp only [List.mem_cons, List.mem_singleton, List.not_mem_nil, or_false] at hk
  rcases hk with h | h | h | h | h | h <;> subst h <;>
    simp [mapGet, Find_length _ doc hshape]

/-- C10, on a page with one `h1` and two `h2` at different depths. -/
theorem AnalyzePage_Headings_witness :
    parsedShape pageNested = true ∧
      countElements "h2" pageNested = 2 ∧
      ∃ a, AnalyzePage (sampleWorld 200 pageNested)
          "http://example.com/" = .returns (some a, none) ∧
        mapKeys a.Headings = ["h1", "h2", "h3", "h4", "h5", "h6"] ∧
        mapLen a.Headings = 6 ∧
        ∀ k ∈ ["h1", "h2", "h3", "h4", "h5", "h6"],
          mapGet a.Headings k = countElements k pageNested :=
  ⟨rfl, rfl, AnalyzePage_Headings (sampleWorld 200 pageNested)
    "http://example.com/" ⟨200, "body"⟩ pageNested rfl rfl rfl⟩

end Crawler
